import Mathlib

/-!
Verification development for the OpenViking contextual memory engine.

This file gives a shallow embedding, in Lean 4, of the parts of the
OpenViking source that the specification's testable claims are about:

* the tenant filter composition of `ContextSemanticSearchGateway`
  (`openviking/storage/context_semantic_gateway.py`);
* API-key resolution, account creation and invitation tokens of
  `APIKeyManager` (`openviking/server/api_keys.py`);
* the hotness score (`openviking/retrieve/memory_lifecycle.py`);
* the request trace collector (`openviking/trace/request_trace.py`);
* the playback success criterion of the IO recorder
  (`openviking/storage/recorder/playback.py`);
* the filter-AST compiler of the vector-store driver
  (`openviking/storage/vector_store/driver.py`).

Python dicts are modelled as association lists, Python exceptions as
explicit error values, wall-clock timestamps as integers or reals, and
the float arithmetic of the hotness score as real arithmetic.
-/

namespace OpenViking

/-! ## Identity model

The identity module (`openviking/server/identity.py`) and
`openviking_cli/session/user_id.py` are not part of the provided sources;
they are modelled from the spec below. -/

/-- Modelled from the spec: the three-role access model ROOT / ADMIN / USER
(`openviking/server/identity.py` is missing from the sources). -/
inductive Role where
  | root
  | admin
  | user
deriving DecidableEq, Repr

/-- Modelled from the spec: `UserIdentifier` is `(account_id, user_id, agent_id)`
(`openviking_cli/session/user_id.py` is missing from the sources). -/
structure UserIdentifier where
  account_id : String
  user_id : String
  agent_id : String
deriving DecidableEq, Repr

/-- Modelled from the spec: `user_space_name() = H(user_id)` where H is a
stable collision-resistant digest rendered as a URL-safe string.  The digest is
modelled as an injective tagged encoding of its input; the claims below depend
only on it being a pure function of `user_id` producing a non-empty string. -/
def UserIdentifier.user_space_name (u : UserIdentifier) : String :=
  "h-" ++ u.user_id

/-- Modelled from the spec: `agent_space_name() = H(user_id ∥ agent_id)`,
with the digest modelled as in `UserIdentifier.user_space_name`. -/
def UserIdentifier.agent_space_name (u : UserIdentifier) : String :=
  "h-" ++ u.user_id ++ "|" ++ u.agent_id

/-- Modelled from the spec: a `RequestContext` pairs a `UserIdentifier` with a
role; `ctx.account_id` delegates to the identifier's account. -/
structure RequestContext where
  user : UserIdentifier
  role : Role
deriving DecidableEq, Repr

/-- Account id carried by a request context (delegation to the identifier). -/
def RequestContext.account_id (ctx : RequestContext) : String :=
  ctx.user.account_id

/-! ## Filter DSL values

The raw filter DSL produced by the gateway and by the driver compiler is a
Python dict.  The dict shapes that occur (`{"op": "must"|"and"|"or"|"range"|
"contains"|"regex", ...}` and the empty dict `{}`) are modelled as an
inductive type; `DSL.empty` stands for the falsy empty dict. -/

/-- Scalar values appearing in filter conditions (strings and ints). -/
inductive JVal where
  | s (v : String)
  | i (v : Int)
deriving DecidableEq, Repr

/-- Raw filter DSL dicts, as produced by `ContextSemanticSearchGateway` and by
`VectorStoreDriver.compile_expr`.  `empty` is the empty dict `{}`, which is
falsy in Python. -/
inductive DSL where
  | empty
  | must (field : String) (conds : List JVal)
  | andD (conds : List DSL)
  | orD (conds : List DSL)
  | rangeD (field : String) (gte gt lte lt : Option JVal)
  | containsD (field substring : String)
  | regexD (field pattern : String)

/-- Python truthiness of a dict: every dict except `{}` is truthy. -/
def DSL.truthy : DSL → Bool
  | .empty => false
  | _ => true

/-! ## Context semantic gateway
(`openviking/storage/context_semantic_gateway.py`) -/

/-- Embeds `ContextSemanticSearchGateway._tenant_filter`: `None` for ROOT,
otherwise the conjunction of the `account_id` predicate and the
`owner_space` predicate over `[user_space, agent_space]`, appending `""`
when `context_type == "resource"`. -/
def tenantFilter (ctx : RequestContext) (context_type : Option String) :
    Option DSL :=
  if ctx.role = Role.root then
    none
  else
    let owner_spaces :=
      [ctx.user.user_space_name, ctx.user.agent_space_name]
        ++ (if context_type = some "resource" then [""] else [])
    some (.andD
      [ .must "account_id" [.s ctx.account_id],
        .must "owner_space" (owner_spaces.map .s) ])

/-- Embeds `ContextSemanticSearchGateway._merge_filters`: drop `None` and
falsy (empty) dicts, then return `None`, the single filter, or an `and`. -/
def mergeFilters (filters : List (Option DSL)) : Option DSL :=
  let non_empty := filters.filterMap fun f =>
    match f with
    | none => none
    | some d => if d.truthy then some d else none
  match non_empty with
  | [] => none
  | [f] => some f
  | fs => some (.andD fs)

/-- Python truthiness of an `Optional[str]`: `None` and `""` are falsy. -/
def optStrTruthy : Option String → Bool
  | none => false
  | some s => !s.isEmpty

/-- Embeds `ContextSemanticSearchGateway._build_scope_filter`: collect the
optional `context_type` predicate, the tenant filter, the
`target_directories` disjunction, and the extra DSL, then merge. -/
def buildScopeFilter (ctx : RequestContext) (context_type : Option String)
    (target_directories : Option (List String))
    (extra_filter_dsl : Option DSL) : Option DSL :=
  let typeFilters : List DSL :=
    if optStrTruthy context_type then
      [.must "context_type" [.s (context_type.getD "")]]
    else []
  let tenantFilters : List DSL :=
    match tenantFilter ctx context_type with
    | some tf => if tf.truthy then [tf] else []
    | none => []
  let dirFilters : List DSL :=
    match target_directories with
    | some dirs =>
      if dirs.isEmpty then []
      else
        let uri_conds := (dirs.filter (fun d => d ≠ "")).map
          fun d => DSL.must "uri" [.s d]
        if uri_conds.isEmpty then [] else [.orD uri_conds]
    | none => []
  let extraFilters : List DSL :=
    match extra_filter_dsl with
    | some d => if d.truthy then [d] else []
    | none => []
  mergeFilters ((typeFilters ++ tenantFilters ++ dirFilters ++ extraFilters).map some)

/-- Filter dispatched by `search_in_tenant` (its `filter=` argument). -/
def searchInTenantFilter (ctx : RequestContext) (context_type : Option String)
    (target_directories : Option (List String))
    (extra_filter_dsl : Option DSL) : Option DSL :=
  buildScopeFilter ctx context_type target_directories extra_filter_dsl

/-- Filter dispatched by `search_global_roots_in_tenant`: the scope filter
merged with the `level ∈ {0, 1}` predicate. -/
def searchGlobalRootsFilter (ctx : RequestContext)
    (context_type : Option String) (target_directories : Option (List String))
    (extra_filter_dsl : Option DSL) : Option DSL :=
  mergeFilters
    [ buildScopeFilter ctx context_type target_directories extra_filter_dsl,
      some (.must "level" [.i 0, .i 1]) ]

/-- Filter dispatched by `search_children_in_tenant`: the `parent_uri`
predicate merged with the scope filter. -/
def searchChildrenFilter (ctx : RequestContext) (parent_uri : String)
    (context_type : Option String) (target_directories : Option (List String))
    (extra_filter_dsl : Option DSL) : Option DSL :=
  mergeFilters
    [ some (.must "parent_uri" [.s parent_uri]),
      buildScopeFilter ctx context_type target_directories extra_filter_dsl ]

/-! ## Theorems about the gateway tenant filter (claims C1, C2) -/

/-- Space names are non-empty: the digest rendering is a tagged string. -/
theorem user_space_name_ne_empty (u : UserIdentifier) :
    u.user_space_name ≠ "" := by
  intro h
  have h2 := congrArg String.length h
  simp [UserIdentifier.user_space_name, String.length_append] at h2
  exact absurd h2.1 (by decide)

/-- Agent space names are non-empty as well. -/
theorem agent_space_name_ne_empty (u : UserIdentifier) :
    u.agent_space_name ≠ "" := by
  intro h
  have h2 := congrArg String.length h
  simp [UserIdentifier.agent_space_name, String.length_append] at h2
  exact absurd h2.1.1.1 (by decide)

/-- C1: the claim says an ADMIN context's tenant filter is exactly the single
predicate `account_id = ctx.account_id` with no `owner_space` restriction.
The source `_tenant_filter` has no ADMIN branch: every non-ROOT role gets the
USER-shaped conjunction, so for a concrete ADMIN context the filter injected
into `search_in_tenant` restricts `owner_space` as well, diverging from the
spec's central rule. -/
theorem admin_tenant_filter_restricts_owner_space :
    tenantFilter ⟨⟨"acme", "alice", "agent1"⟩, .admin⟩ none =
      some (.andD
        [ .must "account_id" [.s "acme"],
          .must "owner_space" [.s "h-alice", .s "h-alice|agent1"] ]) ∧
    searchInTenantFilter ⟨⟨"acme", "alice", "agent1"⟩, .admin⟩ none none none =
      some (.andD
        [ .must "account_id" [.s "acme"],
          .must "owner_space" [.s "h-alice", .s "h-alice|agent1"] ]) ∧
    tenantFilter ⟨⟨"acme", "alice", "agent1"⟩, .admin⟩ none ≠
      some (.must "account_id" [.s "acme"]) := by
  refine ⟨rfl, rfl, ?_⟩
  simp [tenantFilter]

/-- C2: for every request context, ROOT gets no tenant filter, and USER gets
the conjunction `account_id = ctx.account_id AND owner_space ∈ {user_space,
agent_space}` where the empty string belongs to the owner-space set exactly
when the searched `context_type` is `"resource"`. -/
theorem tenant_filter_root_and_user (ctx : RequestContext)
    (ct : Option String) :
    (ctx.role = Role.root → tenantFilter ctx ct = none) ∧
    (ctx.role = Role.user →
      tenantFilter ctx ct = some (.andD
        [ .must "account_id" [.s ctx.account_id],
          .must "owner_space"
            (([ctx.user.user_space_name, ctx.user.agent_space_name]
              ++ (if ct = some "resource" then [""] else [])).map .s) ]) ∧
      ("" ∈ [ctx.user.user_space_name, ctx.user.agent_space_name]
          ++ (if ct = some "resource" then [""] else []) ↔
        ct = some "resource")) := by
  constructor
  · intro h
    simp [tenantFilter, h]
  · intro h
    refine ⟨by simp [tenantFilter, h], ?_⟩
    have hu := user_space_name_ne_empty ctx.user
    have ha := agent_space_name_ne_empty ctx.user
    by_cases hres : ct = some "resource"
    · simp [hres]
    · simp [hres, Ne.symm hu, Ne.symm ha]

/-- Witness for `tenant_filter_root_and_user`, at a ROOT context and a USER
context searching `context_type = "resource"`. -/
theorem tenant_filter_root_and_user_witness :
    tenantFilter ⟨⟨"acme", "alice", "a1"⟩, .root⟩ none = none ∧
    (tenantFilter ⟨⟨"acme", "alice", "a1"⟩, .user⟩ (some "resource") =
      some (.andD
        [ .must "account_id" [.s "acme"],
          .must "owner_space"
            ((["h-alice", "h-alice|a1"]
              ++ (if (some "resource" : Option String) = some "resource"
                then [""] else [])).map .s) ]) ∧
      ("" ∈ ["h-alice", "h-alice|a1"]
          ++ (if (some "resource" : Option String) = some "resource"
            then [""] else []) ↔
        (some "resource" : Option String) = some "resource")) :=
  ⟨(tenant_filter_root_and_user ⟨⟨"acme", "alice", "a1"⟩, .root⟩ none).1 rfl,
   (tenant_filter_root_and_user ⟨⟨"acme", "alice", "a1"⟩, .user⟩
      (some "resource")).2 rfl⟩

/-! ## API key and tenant manager (`openviking/server/api_keys.py`)

Python dicts are modelled as association lists, the nondeterministically
generated values (`secrets.token_hex`, `datetime.now`) as explicit
parameters, and raising methods as `MRes`, which carries the manager state
at the moment of the raise (Python exceptions do not roll state back). -/

/-- Modelled from the spec: the error taxonomy of `openviking_cli/exceptions`
(module missing from the sources), plus Python's builtin `TypeError` and
`ValueError`, which the driver compiler and enum conversions raise. -/
inductive OVError where
  | unauthenticated (msg : String)
  | invalidArgument (msg : String)
  | alreadyExists (resource kind : String)
  | notFound (resource kind : String)
  | typeError (msg : String)
  | valueError (msg : String)
deriving DecidableEq, Repr

/-- Dict lookup on an association list (first binding wins). -/
def alookup {α : Type} : List (String × α) → String → Option α
  | [], _ => none
  | (k', v) :: rest, k => if k' = k then some v else alookup rest k

/-- Dict assignment: replace the binding in place, or append a fresh one. -/
def aset {α : Type} : List (String × α) → String → α → List (String × α)
  | [], k, v => [(k, v)]
  | (k', v') :: rest, k, v =>
    if k' = k then (k, v) :: rest else (k', v') :: aset rest k v

/-- Dict deletion (`pop`/`del`): drop the binding for the key. -/
def adel {α : Type} : List (String × α) → String → List (String × α)
  | [], _ => []
  | (k', v) :: rest, k =>
    if k' = k then adel rest k else (k', v) :: adel rest k

/-- Membership test on the dict model (`key in dict`). -/
def hasKey {α : Type} (l : List (String × α)) (k : String) : Bool :=
  (alookup l k).isSome

/-- String rendering of a role, as persisted in `users.json`. -/
def Role.toStr : Role → String
  | .root => "root"
  | .admin => "admin"
  | .user => "user"

/-- Inverse of `Role.toStr`; Python's `Role(s)` raises on other strings. -/
def Role.ofStr : String → Option Role
  | "root" => some Role.root
  | "admin" => some Role.admin
  | "user" => some Role.user
  | _ => none

/-- A value of an account's `users` dict: `{"role": str, "key": str}`. -/
structure UserRecord where
  role : String
  key : String
deriving DecidableEq, Repr

/-- Embeds `AccountInfo`: creation timestamp and per-account user registry. -/
structure AccountInfo where
  created_at : String
  users : List (String × UserRecord)
deriving DecidableEq, Repr

/-- Embeds `UserKeyEntry`: the in-memory index entry for a user key. -/
structure UserKeyEntry where
  account_id : String
  user_id : String
  role : Role
deriving DecidableEq, Repr

/-- Modelled from the spec: `ResolvedIdentity` (the identity module is
missing from the sources); ROOT identities carry no account or user id. -/
structure ResolvedIdentity where
  role : Role
  account_id : Option String
  user_id : Option String
deriving DecidableEq, Repr

/-- An invitation token's info dict.  `expires_at` is an ISO timestamp in the
source, compared through `datetime.fromisoformat`; it is modelled as an
integer timestamp, `none` standing for absent/falsy. -/
structure TokenInfo where
  max_uses : Option Int
  used_count : Int
  expires_at : Option Int
  created_at : String
  created_by : String
deriving DecidableEq, Repr

/-- The mutable state of `APIKeyManager`: the configured root key and the
three in-memory dicts (`_accounts`, `_user_keys`, `_invitation_tokens`). -/
structure APIKeyManagerState where
  root_key : String
  accounts : List (String × AccountInfo)
  user_keys : List (String × UserKeyEntry)
  invitation_tokens : List (String × TokenInfo)
deriving DecidableEq, Repr

/-- Outcome of a raising manager method: `raised` carries the state at the
moment of the raise, `ok` the state after the method returns. -/
inductive MRes (α : Type) where
  | raised (e : OVError) (st : APIKeyManagerState)
  | ok (st : APIKeyManagerState) (val : α)

/-- Final state of an outcome, raised or not. -/
def MRes.state {α : Type} : MRes α → APIKeyManagerState
  | .raised _ st => st
  | .ok st _ => st

/-- Embeds `APIKeyManager.resolve`: reject an empty key, compare against the
root key (`hmac.compare_digest`, functionally string equality), then consult
the user-key index, otherwise `Unauthenticated`. -/
def resolve (m : APIKeyManagerState) (api_key : String) :
    Except OVError ResolvedIdentity :=
  if api_key = "" then
    .error (.unauthenticated "Missing API Key")
  else if api_key = m.root_key then
    .ok ⟨.root, none, none⟩
  else
    match alookup m.user_keys api_key with
    | some entry => .ok ⟨entry.role, some entry.account_id, some entry.user_id⟩
    | none => .error (.unauthenticated "Invalid API Key")

/-- Embeds `APIKeyManager.create_account`: refuse an existing account id,
otherwise register the account with its first ADMIN user and index the fresh
key.  `now` and `fresh_key` stand for `datetime.now()` and
`secrets.token_hex(32)`. -/
def createAccount (m : APIKeyManagerState)
    (account_id admin_user_id now fresh_key : String) : MRes String :=
  if hasKey m.accounts account_id then
    .raised (.alreadyExists account_id "account") m
  else
    .ok { m with
          accounts := (aset m.accounts account_id
            ⟨now, [(admin_user_id, ⟨"admin", fresh_key⟩)]⟩),
          user_keys := (aset m.user_keys fresh_key
            ⟨account_id, admin_user_id, .admin⟩) }
      fresh_key

/-- Embeds `APIKeyManager.delete_account`: pop the account and evict every
user key of the account from the index. -/
def deleteAccount (m : APIKeyManagerState) (account_id : String) :
    MRes Unit :=
  match alookup m.accounts account_id with
  | none => .raised (.notFound account_id "account") m
  | some account =>
    .ok { m with
          accounts := adel m.accounts account_id,
          user_keys := ((account.users.map fun p => p.2.key).foldl adel
            m.user_keys) }
      ()

/-- Embeds `APIKeyManager.register_user`. -/
def registerUser (m : APIKeyManagerState) (account_id user_id : String)
    (role : Role) (fresh_key : String) : MRes String :=
  match alookup m.accounts account_id with
  | none => .raised (.notFound account_id "account") m
  | some account =>
    if hasKey account.users user_id then
      .raised (.alreadyExists user_id "user") m
    else
      .ok { m with
            accounts := (aset m.accounts account_id
              { account with users := (aset account.users user_id
                  ⟨role.toStr, fresh_key⟩) }),
            user_keys := (aset m.user_keys fresh_key
              ⟨account_id, user_id, role⟩) }
        fresh_key

/-- Embeds `APIKeyManager.remove_user`. -/
def removeUser (m : APIKeyManagerState) (account_id user_id : String) :
    MRes Unit :=
  match alookup m.accounts account_id with
  | none => .raised (.notFound account_id "account") m
  | some account =>
    match alookup account.users user_id with
    | none => .raised (.notFound user_id "user") m
    | some u =>
      .ok { m with
            accounts := (aset m.accounts account_id
              { account with users := adel account.users user_id }),
            user_keys := adel m.user_keys u.key }
        ()

/-- Embeds `APIKeyManager.regenerate_key`; `Role(...)` on a corrupt role
string raises `ValueError` in Python. -/
def regenerateKey (m : APIKeyManagerState) (account_id user_id new_key : String) :
    MRes String :=
  match alookup m.accounts account_id with
  | none => .raised (.notFound account_id "account") m
  | some account =>
    match alookup account.users user_id with
    | none => .raised (.notFound user_id "user") m
    | some u =>
      match Role.ofStr u.role with
      | none => .raised (.valueError u.role) m
      | some r =>
        .ok { m with
              accounts := (aset m.accounts account_id
                { account with users := (aset account.users user_id
                    { u with key := new_key }) }),
              user_keys := (aset (adel m.user_keys u.key) new_key
                ⟨account_id, user_id, r⟩) }
          new_key

/-- Embeds `APIKeyManager.set_role` (role given as an enum value, rendered to
its string form for the persisted registry, as the source does). -/
def setRole (m : APIKeyManagerState) (account_id user_id : String)
    (role : Role) : MRes Unit :=
  match alookup m.accounts account_id with
  | none => .raised (.notFound account_id "account") m
  | some account =>
    match alookup account.users user_id with
    | none => .raised (.notFound user_id "user") m
    | some u =>
      let accounts' := aset m.accounts account_id
        { account with users := (aset account.users user_id
            { u with role := role.toStr }) }
      if hasKey m.user_keys u.key then
        .ok { m with
              accounts := accounts',
              user_keys := (aset m.user_keys u.key
                ⟨account_id, user_id, role⟩) }
          ()
      else
        .ok { m with accounts := accounts' } ()

/-- Embeds `APIKeyManager.create_invitation_token`; `token_id` stands for the
freshly generated `inv_<hex>` id and `now` for `datetime.now()`. -/
def createInvitationToken (m : APIKeyManagerState) (created_by : String)
    (max_uses : Option Int) (expires_at : Option Int)
    (now token_id : String) : MRes String :=
  .ok { m with invitation_tokens := (aset m.invitation_tokens token_id
        ⟨max_uses, 0, expires_at, now, created_by⟩) }
    token_id

/-- Embeds `APIKeyManager.revoke_invitation_token`. -/
def revokeInvitationToken (m : APIKeyManagerState) (token_id : String) :
    MRes Unit :=
  if hasKey m.invitation_tokens token_id then
    .ok { m with invitation_tokens := adel m.invitation_tokens token_id } ()
  else
    .raised (.notFound token_id "invitation token") m

/-- Expiry check of `create_account_with_token`: an absent (or falsy)
`expires_at` is skipped, otherwise compare with the current time. -/
def tokenExpired (info : TokenInfo) (now_t : Int) : Bool :=
  match info.expires_at with
  | some expires => decide (expires < now_t)
  | none => false

/-- Usage-cap check of `create_account_with_token`: `max_uses is not None`
and `used_count >= max_uses`. -/
def tokenMaxed (info : TokenInfo) : Bool :=
  match info.max_uses with
  | some mu => decide (mu ≤ info.used_count)
  | none => false

/-- Embeds `APIKeyManager.create_account_with_token`: look the token up,
check expiry, check the usage cap, delegate to `create_account`, then
increment the token's `used_count` and return `(account_id, admin_key)`. -/
def createAccountWithToken (m : APIKeyManagerState)
    (token account_id admin_user_id : String) (now_t : Int)
    (now_s fresh_key : String) : MRes (String × String) :=
  match alookup m.invitation_tokens token with
  | none => .raised (.invalidArgument "Invalid invitation token") m
  | some info =>
    if tokenExpired info now_t then
      .raised (.invalidArgument "Invitation token has expired") m
    else if tokenMaxed info then
      .raised (.invalidArgument "Invitation token has reached maximum uses") m
    else
      match createAccount m account_id admin_user_id now_s fresh_key with
      | .raised e st => .raised e st
      | .ok m' admin_key =>
        .ok { m' with invitation_tokens :=
              (aset m'.invitation_tokens token
                { info with used_count := info.used_count + 1 }) }
          (account_id, admin_key)

/-! ### The manager's operations as a step relation -/

/-- One mutating (or key-resolving) call on the manager, with the
nondeterministically generated values as explicit arguments. -/
inductive MgrOp where
  | createAccount (account_id admin_user_id now fresh_key : String)
  | deleteAccount (account_id : String)
  | registerUser (account_id user_id : String) (role : Role) (fresh_key : String)
  | removeUser (account_id user_id : String)
  | regenerateKey (account_id user_id new_key : String)
  | setRole (account_id user_id : String) (role : Role)
  | createInvitationToken (created_by : String) (max_uses : Option Int)
      (expires_at : Option Int) (now token_id : String)
  | revokeInvitationToken (token_id : String)
  | createAccountWithToken (token account_id admin_user_id : String)
      (now_t : Int) (now_s fresh_key : String)
  | resolveKey (api_key : String)

/-- The manager state after one operation (whether it raised or returned;
`resolve` and the listing getters leave the state untouched). -/
def stepState (m : APIKeyManagerState) : MgrOp → APIKeyManagerState
  | .createAccount aid uid now key => (createAccount m aid uid now key).state
  | .deleteAccount aid => (deleteAccount m aid).state
  | .registerUser aid uid r key => (registerUser m aid uid r key).state
  | .removeUser aid uid => (removeUser m aid uid).state
  | .regenerateKey aid uid key => (regenerateKey m aid uid key).state
  | .setRole aid uid r => (setRole m aid uid r).state
  | .createInvitationToken cb mu exp now tid =>
      (createInvitationToken m cb mu exp now tid).state
  | .revokeInvitationToken tid => (revokeInvitationToken m tid).state
  | .createAccountWithToken tok aid uid t now key =>
      (createAccountWithToken m tok aid uid t now key).state
  | .resolveKey _ => m

/-- The manager state after a sequence of operations. -/
def runOps (m : APIKeyManagerState) (ops : List MgrOp) : APIKeyManagerState :=
  ops.foldl stepState m

/-- Whether an operation (re-)creates the invitation token `t`; the source
generates token ids freshly and the spec says they are never re-issued. -/
def createsToken (op : MgrOp) (t : String) : Prop :=
  match op with
  | .createInvitationToken _ _ _ _ tid => tid = t
  | _ => False

/-! ### Dictionary lemmas -/

/-- Lookup after assignment: the assigned key maps to the new value, other
keys are untouched. -/
theorem alookup_aset {α : Type} (l : List (String × α)) (k : String) (v : α)
    (k' : String) :
    alookup (aset l k v) k' = if k = k' then some v else alookup l k' := by
  induction l with
  | nil => by_cases h : k = k' <;> simp [aset, alookup, h]
  | cons hd tl ih =>
    obtain ⟨a, b⟩ := hd
    by_cases hak : a = k <;> by_cases hkk : k = k'
    · subst hak; subst hkk; simp [aset, alookup]
    · subst hak; simp [aset, alookup, hkk]
    · subst hkk; simp [aset, alookup, hak, ih]
    · by_cases hak' : a = k'
      · subst hak'; simp [aset, alookup, hak, hkk, ih]
      · simp [aset, alookup, hak, hkk, hak', ih]

/-- A deleted key no longer resolves. -/
theorem alookup_adel_self {α : Type} (l : List (String × α)) (k : String) :
    alookup (adel l k) k = none := by
  induction l with
  | nil => rfl
  | cons hd tl ih =>
    obtain ⟨a, b⟩ := hd
    by_cases hak : a = k <;> simp [adel, alookup, hak, ih]

/-- Deleting one key leaves the other keys' bindings unchanged. -/
theorem alookup_adel_ne {α : Type} (l : List (String × α)) (k k' : String)
    (h : k ≠ k') : alookup (adel l k) k' = alookup l k' := by
  induction l with
  | nil => rfl
  | cons hd tl ih =>
    obtain ⟨a, b⟩ := hd
    by_cases hak : a = k
    · subst hak
      simp [adel, alookup, fun hh : a = k' => h hh, ih]
    · by_cases hak' : a = k'
      · subst hak'
        simp [adel, alookup, hak]
      · simp [adel, alookup, hak, hak', ih]

/-! ### Inversion lemmas for `createAccount` -/

/-- When `create_account` raises, the state it leaves behind is the input
state: the duplicate-account check precedes every mutation. -/
theorem createAccount_raised_state (m : APIKeyManagerState)
    (aid uid now key : String) (e : OVError) (st : APIKeyManagerState)
    (h : createAccount m aid uid now key = .raised e st) : st = m := by
  unfold createAccount at h
  split at h
  · cases h; rfl
  · cases h

/-- `create_account` never touches the invitation tokens. -/
theorem createAccount_ok_tokens (m : APIKeyManagerState)
    (aid uid now key : String) (m' : APIKeyManagerState) (v : String)
    (h : createAccount m aid uid now key = .ok m' v) :
    m'.invitation_tokens = m.invitation_tokens := by
  unfold createAccount at h
  split at h
  · cases h
  · cases h; rfl

/-! ### Token-count monotonicity -/

/-- One manager operation never decreases the `used_count` of an invitation
token that it does not freshly (re-)create. -/
theorem stepState_tokens_mono (m : APIKeyManagerState) (op : MgrOp) (t : String)
    (hop : ¬ createsToken op t) (i' : TokenInfo)
    (h' : alookup (stepState m op).invitation_tokens t = some i') :
    ∃ i, alookup m.invitation_tokens t = some i ∧
      i.used_count ≤ i'.used_count := by
  cases op with
  | createAccount aid uid now key =>
    refine ⟨i', ?_, le_refl _⟩
    simp only [stepState, createAccount] at h'
    split at h' <;> simpa [MRes.state] using h'
  | deleteAccount aid =>
    refine ⟨i', ?_, le_refl _⟩
    simp only [stepState, deleteAccount] at h'
    split at h' <;> simpa [MRes.state] using h'
  | registerUser aid uid r key =>
    refine ⟨i', ?_, le_refl _⟩
    simp only [stepState, registerUser] at h'
    split at h' <;> (try split at h') <;> simpa [MRes.state] using h'
  | removeUser aid uid =>
    refine ⟨i', ?_, le_refl _⟩
    simp only [stepState, removeUser] at h'
    split at h' <;> (try split at h') <;> simpa [MRes.state] using h'
  | regenerateKey aid uid key =>
    refine ⟨i', ?_, le_refl _⟩
    simp only [stepState, regenerateKey] at h'
    split at h' <;> (try split at h') <;> (try split at h') <;>
      simpa [MRes.state] using h'
  | setRole aid uid r =>
    refine ⟨i', ?_, le_refl _⟩
    simp only [stepState, setRole] at h'
    split at h' <;> (try split at h') <;> (try split at h') <;>
      simpa [MRes.state] using h'
  | createInvitationToken cb mu exp now tid =>
    simp only [createsToken] at hop
    refine ⟨i', ?_, le_refl _⟩
    simp only [stepState, createInvitationToken, MRes.state] at h'
    rw [alookup_aset, if_neg hop] at h'
    exact h'
  | revokeInvitationToken tid =>
    refine ⟨i', ?_, le_refl _⟩
    simp only [stepState, revokeInvitationToken] at h'
    split at h'
    · simp only [MRes.state] at h'
      by_cases htid : tid = t
      · subst htid
        rw [alookup_adel_self] at h'
        cases h'
      · rw [alookup_adel_ne _ _ _ htid] at h'
        exact h'
    · simpa [MRes.state] using h'
  | createAccountWithToken tok aid uid nt ns key =>
    simp only [stepState, createAccountWithToken] at h'
    split at h'
    · exact ⟨i', by simpa [MRes.state] using h', le_refl _⟩
    · rename_i info hinfo
      split at h'
      · exact ⟨i', by simpa [MRes.state] using h', le_refl _⟩
      · split at h'
        · exact ⟨i', by simpa [MRes.state] using h', le_refl _⟩
        · rcases hca : createAccount m aid uid ns key with ⟨e, st⟩ | ⟨m2, ak⟩
          · rw [hca] at h'
            simp only [MRes.state] at h'
            have hst := createAccount_raised_state m aid uid ns key e st hca
            subst hst
            exact ⟨i', h', le_refl _⟩
          · rw [hca] at h'
            simp only [MRes.state] at h'
            rw [createAccount_ok_tokens m aid uid ns key m2 ak hca] at h'
            rw [alookup_aset] at h'
            by_cases htok : tok = t
            · subst htok
              rw [if_pos rfl] at h'
              injection h' with h2
              refine ⟨info, hinfo, ?_⟩
              rw [← h2]
              show info.used_count ≤ info.used_count + 1
              omega
            · rw [if_neg htok] at h'
              exact ⟨i', h', le_refl _⟩
  | resolveKey k =>
    exact ⟨i', h', le_refl _⟩

/-- Across any sequence of manager operations, none of which re-issues the
token, an existing invitation token's `used_count` never decreases. -/
theorem runOps_tokens_mono (ops : List MgrOp) (m : APIKeyManagerState)
    (t : String) (hops : ∀ op ∈ ops, ¬ createsToken op t)
    (i : TokenInfo) (hi : alookup m.invitation_tokens t = some i)
    (i' : TokenInfo)
    (hi' : alookup (runOps m ops).invitation_tokens t = some i') :
    i.used_count ≤ i'.used_count := by
  induction ops generalizing m i with
  | nil =>
    simp only [runOps, List.foldl_nil] at hi'
    rw [hi] at hi'
    injection hi' with h2
    rw [h2]
  | cons op rest ih =>
    simp only [runOps, List.foldl_cons] at hi'
    by_cases hmid : ∃ j, alookup (stepState m op).invitation_tokens t = some j
    · obtain ⟨j, hj⟩ := hmid
      obtain ⟨i0, hi0, hle⟩ :=
        stepState_tokens_mono m op t (hops op (by simp)) j hj
      rw [hi] at hi0
      injection hi0 with h2
      have hrest := ih (stepState m op)
        (fun o ho => hops o (by simp [ho])) j hj
      exact le_trans (h2 ▸ hle) (hrest hi')
    · exfalso
      -- once the token is gone it can only reappear through a re-issue,
      -- which the hypothesis excludes
      have habsent : alookup (stepState m op).invitation_tokens t = none := by
        cases hmid2 : alookup (stepState m op).invitation_tokens t with
        | none => rfl
        | some j => exact absurd ⟨j, hmid2⟩ hmid
      -- show the absence persists; prove by an auxiliary induction
      have : ∀ (ops' : List MgrOp) (m' : APIKeyManagerState),
          (∀ op' ∈ ops', ¬ createsToken op' t) →
          alookup m'.invitation_tokens t = none →
          alookup (runOps m' ops').invitation_tokens t = none := by
        intro ops'
        induction ops' with
        | nil => intro m' _ hnone; simpa [runOps] using hnone
        | cons o rest' ih' =>
          intro m' ho hnone
          simp only [runOps, List.foldl_cons]
          refine ih' (stepState m' o) (fun x hx => ho x (by simp [hx])) ?_
          cases hnext : alookup (stepState m' o).invitation_tokens t with
          | none => rfl
          | some j =>
            obtain ⟨i0, hi0, _⟩ :=
              stepState_tokens_mono m' o t (ho o (by simp)) j hnext
            rw [hnone] at hi0
            cases hi0
      have habs2 := this rest (stepState m op)
        (fun o ho => hops o (by simp [ho])) habsent
      simp only [runOps] at habs2
      rw [habs2] at hi'
      cases hi'

/-- A successful `create_account` returns exactly the fresh key. -/
theorem createAccount_ok_val (m : APIKeyManagerState)
    (aid uid now key : String) (m' : APIKeyManagerState) (v : String)
    (h : createAccount m aid uid now key = .ok m' v) : v = key := by
  unfold createAccount at h
  split at h
  · cases h
  · cases h; rfl

/-- C3: `APIKeyManager.resolve` is strictly sequential: an empty key is
always `Unauthenticated`; otherwise a key equal to the configured root key
resolves to a ROOT identity; otherwise a key present in the user-key index
resolves to that entry's role, account and user; otherwise
`Unauthenticated`.  (`hmac.compare_digest` is timing-safe string equality;
its functional behaviour is equality, which is what the embedding models.) -/
theorem resolve_sequential (m : APIKeyManagerState) (k : String) :
    (k = "" → resolve m k = .error (.unauthenticated "Missing API Key")) ∧
    (k ≠ "" → k = m.root_key → resolve m k = .ok ⟨.root, none, none⟩) ∧
    (∀ e, k ≠ "" → k ≠ m.root_key → alookup m.user_keys k = some e →
      resolve m k = .ok ⟨e.role, some e.account_id, some e.user_id⟩) ∧
    (k ≠ "" → k ≠ m.root_key → alookup m.user_keys k = none →
      resolve m k = .error (.unauthenticated "Invalid API Key")) := by
  refine ⟨?_, ?_, ?_, ?_⟩
  · intro h
    simp [resolve, h]
  · intro h1 h2
    unfold resolve
    rw [if_neg h1, if_pos h2]
  · intro e h1 h2 h3
    unfold resolve
    rw [if_neg h1, if_neg h2, h3]
  · intro h1 h2 h3
    unfold resolve
    rw [if_neg h1, if_neg h2, h3]

/-- Witness for `resolve_sequential` on a concrete manager with one user
key, exercising all four branches. -/
theorem resolve_sequential_witness :
    (resolve ⟨"rootkey", [], [("ukey", ⟨"acme", "alice", .user⟩)], []⟩ "" =
      .error (.unauthenticated "Missing API Key")) ∧
    (resolve ⟨"rootkey", [], [("ukey", ⟨"acme", "alice", .user⟩)], []⟩
        "rootkey" = .ok ⟨.root, none, none⟩) ∧
    (resolve ⟨"rootkey", [], [("ukey", ⟨"acme", "alice", .user⟩)], []⟩
        "ukey" = .ok ⟨.user, some "acme", some "alice"⟩) ∧
    (resolve ⟨"rootkey", [], [("ukey", ⟨"acme", "alice", .user⟩)], []⟩
        "nope" = .error (.unauthenticated "Invalid API Key")) :=
  ⟨(resolve_sequential _ "").1 rfl,
   (resolve_sequential _ "rootkey").2.1 (by decide) rfl,
   (resolve_sequential _ "ukey").2.2.1 ⟨"acme", "alice", .user⟩
     (by decide) (by decide) rfl,
   (resolve_sequential _ "nope").2.2.2 (by decide) (by decide) rfl⟩

/-- C4: `create_account_with_token` rejects an unknown token, checks expiry
before the usage cap (an expired token reports expiry even when the cap is
also reached), raises `InvalidArgument` for each failed check, and on
success delegates account creation to `create_account` and increments the
token's `used_count` by exactly one; across every sequence of manager
operations that does not re-issue the token id, a token's `used_count`
never decreases. -/
theorem create_account_with_token_checks (m : APIKeyManagerState)
    (tok aid uid : String) (nt : Int) (ns key : String) :
    (alookup m.invitation_tokens tok = none →
      createAccountWithToken m tok aid uid nt ns key =
        .raised (.invalidArgument "Invalid invitation token") m) ∧
    (∀ info, alookup m.invitation_tokens tok = some info →
      tokenExpired info nt = true →
      createAccountWithToken m tok aid uid nt ns key =
        .raised (.invalidArgument "Invitation token has expired") m) ∧
    (∀ info, alookup m.invitation_tokens tok = some info →
      tokenExpired info nt = false → tokenMaxed info = true →
      createAccountWithToken m tok aid uid nt ns key =
        .raised (.invalidArgument "Invitation token has reached maximum uses")
          m) ∧
    (∀ info m' res, alookup m.invitation_tokens tok = some info →
      createAccountWithToken m tok aid uid nt ns key = .ok m' res →
      res = (aid, key) ∧
      ∃ mca, createAccount m aid uid ns key = .ok mca key ∧
        m'.accounts = mca.accounts ∧ m'.user_keys = mca.user_keys ∧
        alookup m'.invitation_tokens tok =
          some { info with used_count := info.used_count + 1 }) ∧
    (∀ (ops : List MgrOp) (t : String),
      (∀ op ∈ ops, ¬ createsToken op t) →
      ∀ info info', alookup m.invitation_tokens t = some info →
        alookup (runOps m ops).invitation_tokens t = some info' →
        info.used_count ≤ info'.used_count) := by
  refine ⟨?_, ?_, ?_, ?_, ?_⟩
  · intro h
    unfold createAccountWithToken
    rw [h]
  · intro info h hexp
    unfold createAccountWithToken
    rw [h]
    simp [hexp]
  · intro info h hexp hmax
    unfold createAccountWithToken
    rw [h]
    simp [hexp, hmax]
  · intro info m' res h hok
    unfold createAccountWithToken at hok
    split at hok
    · rename_i heq
      rw [h] at heq
      cases heq
    · rename_i info2 heq
      rw [h] at heq
      injection heq with heqi
      subst heqi
      split at hok
      · cases hok
      · split at hok
        · cases hok
        · rcases hca : createAccount m aid uid ns key with ⟨e, st⟩ | ⟨m2, ak⟩
          · rw [hca] at hok
            cases hok
          · rw [hca] at hok
            injection hok with hst hres
            have hak := createAccount_ok_val m aid uid ns key m2 ak hca
            subst hak
            refine ⟨hres.symm, m2, ?_, ?_, ?_, ?_⟩
            · rfl
            · rw [← hst]
            · rw [← hst]
            · rw [← hst]
              show alookup (aset m2.invitation_tokens tok _) tok = _
              rw [alookup_aset, if_pos rfl]
  · intro ops t hops info info' hi hi'
    exact runOps_tokens_mono ops m t hops info hi info' hi'

/-- Witness for `create_account_with_token_checks`: a concrete manager is
driven through the unknown-token, expired, capped and successful paths, and
through a one-operation sequence for the monotonicity conjunct. -/
theorem create_account_with_token_checks_witness :
    (createAccountWithToken ⟨"rk", [], [], []⟩ "t" "a" "u" 0 "n" "k" =
      .raised (.invalidArgument "Invalid invitation token")
        ⟨"rk", [], [], []⟩) ∧
    (createAccountWithToken
        ⟨"rk", [], [], [("t", ⟨some 2, 2, some 100, "c", "r"⟩)]⟩
        "t" "a" "u" 200 "n" "k" =
      .raised (.invalidArgument "Invitation token has expired")
        ⟨"rk", [], [], [("t", ⟨some 2, 2, some 100, "c", "r"⟩)]⟩) ∧
    (createAccountWithToken
        ⟨"rk", [], [], [("t", ⟨some 2, 2, some 100, "c", "r"⟩)]⟩
        "t" "a" "u" 50 "n" "k" =
      .raised (.invalidArgument "Invitation token has reached maximum uses")
        ⟨"rk", [], [], [("t", ⟨some 2, 2, some 100, "c", "r"⟩)]⟩) ∧
    (((("a" : String), ("k" : String)) = ("a", "k")) ∧
      ∃ mca, createAccount ⟨"rk", [], [], [("t", ⟨some 2, 0, none, "c", "r"⟩)]⟩
          "a" "u" "n" "k" = .ok mca "k" ∧
        (⟨"rk", [("a", ⟨"n", [("u", ⟨"admin", "k"⟩)]⟩)],
            [("k", ⟨"a", "u", .admin⟩)],
            [("t", ⟨some 2, 1, none, "c", "r"⟩)]⟩ :
          APIKeyManagerState).accounts = mca.accounts ∧
        (⟨"rk", [("a", ⟨"n", [("u", ⟨"admin", "k"⟩)]⟩)],
            [("k", ⟨"a", "u", .admin⟩)],
            [("t", ⟨some 2, 1, none, "c", "r"⟩)]⟩ :
          APIKeyManagerState).user_keys = mca.user_keys ∧
        alookup (⟨"rk", [("a", ⟨"n", [("u", ⟨"admin", "k"⟩)]⟩)],
            [("k", ⟨"a", "u", .admin⟩)],
            [("t", ⟨some 2, 1, none, "c", "r"⟩)]⟩ :
          APIKeyManagerState).invitation_tokens "t" =
          some ⟨some 2, 0 + 1, none, "c", "r"⟩) ∧
    ((⟨some 2, 0, none, "c", "r"⟩ : TokenInfo).used_count ≤
      (⟨some 2, 1, none, "c", "r"⟩ : TokenInfo).used_count) :=
  ⟨(create_account_with_token_checks ⟨"rk", [], [], []⟩
      "t" "a" "u" 0 "n" "k").1 rfl,
   (create_account_with_token_checks _ "t" "a" "u" 200 "n" "k").2.1
     ⟨some 2, 2, some 100, "c", "r"⟩ rfl rfl,
   (create_account_with_token_checks _ "t" "a" "u" 50 "n" "k").2.2.1
     ⟨some 2, 2, some 100, "c", "r"⟩ rfl rfl rfl,
   (create_account_with_token_checks
      ⟨"rk", [], [], [("t", ⟨some 2, 0, none, "c", "r"⟩)]⟩
      "t" "a" "u" 5 "n" "k").2.2.2.1
     ⟨some 2, 0, none, "c", "r"⟩ _ ("a", "k") rfl rfl,
   (create_account_with_token_checks
      ⟨"rk", [], [], [("t", ⟨some 2, 0, none, "c", "r"⟩)]⟩
      "t" "a" "u" 5 "n" "k").2.2.2.2
     [.createAccountWithToken "t" "a" "u" 5 "n" "k"] "t"
     (by intro op hop
         simp only [List.mem_singleton] at hop
         subst hop
         exact fun hfalse => hfalse)
     ⟨some 2, 0, none, "c", "r"⟩ ⟨some 2, 1, none, "c", "r"⟩ rfl rfl⟩

/-- C10: `create_account_with_token` is atomic on error: whenever it raises
(unknown token, expired token, usage cap reached, or `create_account`
raising `AlreadyExists`), the manager state at the raise is exactly the
input state — no account, no user-key index entry and no token increment. -/
theorem create_account_with_token_atomic (m : APIKeyManagerState)
    (tok aid uid : String) (nt : Int) (ns key : String) (e : OVError)
    (mf : APIKeyManagerState)
    (h : createAccountWithToken m tok aid uid nt ns key = .raised e mf) :
    mf = m := by
  unfold createAccountWithToken at h
  split at h
  · cases h; rfl
  · split at h
    · cases h; rfl
    · split at h
      · cases h; rfl
      · rcases hca : createAccount m aid uid ns key with ⟨e2, st⟩ | ⟨m2, ak⟩
        · rw [hca] at h
          cases h
          exact createAccount_raised_state m aid uid ns key _ _ hca
        · rw [hca] at h
          cases h

/-- Witness for `create_account_with_token_atomic`: a raise with an already
existing account id leaves a concrete manager unchanged. -/
theorem create_account_with_token_atomic_witness :
    (⟨"rk", [("a", ⟨"n0", []⟩)], [],
        [("t", ⟨some 2, 0, none, "c", "r"⟩)]⟩ : APIKeyManagerState) =
      ⟨"rk", [("a", ⟨"n0", []⟩)], [],
        [("t", ⟨some 2, 0, none, "c", "r"⟩)]⟩ :=
  create_account_with_token_atomic
    ⟨"rk", [("a", ⟨"n0", []⟩)], [], [("t", ⟨some 2, 0, none, "c", "r"⟩)]⟩
    "t" "a" "u" 5 "n" "k" (.alreadyExists "a" "account") _ rfl

/-! ## Hotness score (`openviking/retrieve/memory_lifecycle.py`)

The source computes with Python floats; the embedding uses real arithmetic
(`math.exp`, `math.log`, `math.log1p` become `Real.exp`, `Real.log`,
`Real.log (1 + ·)`).  Timestamps are reals (seconds); `updated_at = None`
is `Option.none`; the timezone normalisation is the identity in this model
since timestamps are already absolute. -/

/-- Embeds `hotness_score`: `sigmoid(log1p(active_count))` times an
exponential decay with the given half-life over the clamped age in days,
and `0.0` when `updated_at` is `None`. -/
noncomputable def hotness_score (active_count : ℕ) (updated_at : Option ℝ)
    (now : ℝ) (half_life_days : ℝ) : ℝ :=
  let freq := 1 / (1 + Real.exp (-Real.log (1 + (active_count : ℝ))))
  match updated_at with
  | none => 0
  | some t =>
    let age_days := max ((now - t) / 86400) 0
    let decay_rate := Real.log 2 / half_life_days
    freq * Real.exp (-(decay_rate * age_days))

/-- Default half-life (`DEFAULT_HALF_LIFE_DAYS = 7.0`). -/
def DEFAULT_HALF_LIFE_DAYS : ℝ := 7

/-- C5 counterexample: the claim asserts strict monotonicity in `updated_at`
with `active_count` held fixed, but the source clamps the age at zero, so
any two timestamps in the future of `now` produce the same (non-zero)
score: with `now = 0`, `updated_at = 86400` and `updated_at = 172800` give
equal hotness. -/
theorem hotness_not_strictly_monotone_in_updated_at :
    hotness_score 1 (some 86400) 0 DEFAULT_HALF_LIFE_DAYS =
      hotness_score 1 (some 172800) 0 DEFAULT_HALF_LIFE_DAYS ∧
    (86400 : ℝ) < 172800 ∧
    0 < hotness_score 1 (some 86400) 0 DEFAULT_HALF_LIFE_DAYS := by
  refine ⟨?_, by norm_num, ?_⟩
  · show (1 / (1 + Real.exp (-Real.log (1 + (1 : ℕ))))) *
        Real.exp (-(Real.log 2 / DEFAULT_HALF_LIFE_DAYS *
          max ((0 - 86400) / 86400) 0)) =
      (1 / (1 + Real.exp (-Real.log (1 + (1 : ℕ))))) *
        Real.exp (-(Real.log 2 / DEFAULT_HALF_LIFE_DAYS *
          max ((0 - 172800) / 86400) 0))
    rw [max_eq_right (by norm_num : ((0 : ℝ) - 86400) / 86400 ≤ 0),
        max_eq_right (by norm_num : ((0 : ℝ) - 172800) / 86400 ≤ 0)]
  · show 0 < (1 / (1 + Real.exp (-Real.log (1 + (1 : ℕ))))) *
        Real.exp (-(Real.log 2 / DEFAULT_HALF_LIFE_DAYS *
          max ((0 - 86400) / 86400) 0))
    positivity

/-- C5 (amended): with a positive half-life, the hotness score is strictly
increasing in `active_count` for any non-`None` `updated_at`; it is
strictly increasing in `updated_at` on timestamps not later than `now`
(the age is clamped at zero beyond `now`); and `hotness(·, None) = 0`. -/
theorem hotness_score_monotone (half_life_days : ℝ)
    (hhl : 0 < half_life_days) (now : ℝ) :
    (∀ (t : ℝ) (c1 c2 : ℕ), c1 < c2 →
      hotness_score c1 (some t) now half_life_days <
        hotness_score c2 (some t) now half_life_days) ∧
    (∀ (c : ℕ) (t1 t2 : ℝ), t1 < t2 → t2 ≤ now →
      hotness_score c (some t1) now half_life_days <
        hotness_score c (some t2) now half_life_days) ∧
    (∀ c : ℕ, hotness_score c none now half_life_days = 0) := by
  refine ⟨?_, ?_, fun c => rfl⟩
  · intro t c1 c2 hc
    show (1 / (1 + Real.exp (-Real.log (1 + (c1 : ℝ))))) * _ <
      (1 / (1 + Real.exp (-Real.log (1 + (c2 : ℝ))))) * _
    apply mul_lt_mul_of_pos_right _ (Real.exp_pos _)
    have h1 : (0 : ℝ) < 1 + c1 := by positivity
    have h12 : (1 : ℝ) + c1 < 1 + c2 := by
      have : (c1 : ℝ) < c2 := by exact_mod_cast hc
      linarith
    have hlog := Real.log_lt_log h1 h12
    have hexp : Real.exp (-Real.log (1 + (c2 : ℝ))) <
        Real.exp (-Real.log (1 + (c1 : ℝ))) :=
      Real.exp_lt_exp.mpr (by linarith)
    have hpos : 0 < 1 + Real.exp (-Real.log (1 + (c2 : ℝ))) := by positivity
    exact one_div_lt_one_div_of_lt hpos (by linarith)
  · intro c t1 t2 ht hle
    show _ * Real.exp (-(Real.log 2 / half_life_days *
        max ((now - t1) / 86400) 0)) <
      _ * Real.exp (-(Real.log 2 / half_life_days *
        max ((now - t2) / 86400) 0))
    have hfreq : 0 < 1 / (1 + Real.exp (-Real.log (1 + (c : ℝ)))) := by
      positivity
    apply mul_lt_mul_of_pos_left _ hfreq
    apply Real.exp_lt_exp.mpr
    have hrate : 0 < Real.log 2 / half_life_days :=
      div_pos (Real.log_pos (by norm_num)) hhl
    rw [max_eq_left (div_nonneg (by linarith) (by norm_num)),
        max_eq_left (div_nonneg (by linarith) (by norm_num))]
    have hdiv : (now - t2) / 86400 < (now - t1) / 86400 :=
      (div_lt_div_iff_of_pos_right (by norm_num)).mpr (by linarith)
    have := mul_lt_mul_of_pos_left hdiv hrate
    linarith

/-- Witness for `hotness_score_monotone` at the default half-life, with
concrete counts and timestamps. -/
theorem hotness_score_monotone_witness :
    (0 : ℝ) < DEFAULT_HALF_LIFE_DAYS ∧
    (hotness_score 3 (some 1000) 100000 DEFAULT_HALF_LIFE_DAYS <
      hotness_score 4 (some 1000) 100000 DEFAULT_HALF_LIFE_DAYS) ∧
    (hotness_score 3 (some 1000) 100000 DEFAULT_HALF_LIFE_DAYS <
      hotness_score 3 (some 2000) 100000 DEFAULT_HALF_LIFE_DAYS) ∧
    hotness_score 3 none 100000 DEFAULT_HALF_LIFE_DAYS = 0 :=
  ⟨by norm_num [DEFAULT_HALF_LIFE_DAYS],
   (hotness_score_monotone DEFAULT_HALF_LIFE_DAYS
      (by norm_num [DEFAULT_HALF_LIFE_DAYS]) 100000).1 1000 3 4 (by norm_num),
   (hotness_score_monotone DEFAULT_HALF_LIFE_DAYS
      (by norm_num [DEFAULT_HALF_LIFE_DAYS]) 100000).2.1 3 1000 2000
     (by norm_num) (by norm_num),
   (hotness_score_monotone DEFAULT_HALF_LIFE_DAYS
      (by norm_num [DEFAULT_HALF_LIFE_DAYS]) 100000).2.2 3⟩

/-! ## Request trace collector (`openviking/trace/request_trace.py`)

The collector's wall-clock measurements (`time.perf_counter`) enter as
explicit timestamp/duration parameters.  The summary fields aggregated from
the `Any`-typed counters and gauges (`token_usage`, `vector.*`,
`semantic_nodes.*`, `memory.*`, `errors.*`) are request-time measurement
data that no claim touches; the embedding keeps the summary fields the
claims concern (`trace_id`, `operation`, `status`, `events_truncated`,
`dropped_events`), computed exactly as `TraceSummaryBuilder.build` computes
them. -/

/-- Embeds `TraceEvent` (attrs modelled as string pairs). -/
structure TraceEvent where
  stage : String
  name : String
  ts_ms : ℚ
  status : String
  attrs : List (String × String)
deriving DecidableEq, Repr

/-- State of a `RequestTraceCollector`. -/
structure RequestTraceCollector where
  operation : String
  enabled : Bool
  trace_id : String
  max_events : ℕ
  events : List TraceEvent
  dropped_events : ℕ
deriving DecidableEq, Repr

/-- Embeds the constructor: fresh event list and drop counter; the trace id
is `tr_<uuid hex>` when enabled, `""` otherwise (`uuid` is the ambient
nondeterministic hex string). -/
def mkCollector (operation : String) (enabled : Bool) (uuid : String)
    (max_events : ℕ) : RequestTraceCollector :=
  ⟨operation, enabled,
   if enabled then "tr_" ++ uuid else "", max_events, [], 0⟩

/-- Embeds `RequestTraceCollector.event`: no-op when disabled; count a drop
when the buffer already holds `max_events` events; append otherwise. -/
def RequestTraceCollector.event (c : RequestTraceCollector)
    (stage nm : String) (attrs : List (String × String)) (status : String)
    (ts_ms : ℚ) : RequestTraceCollector :=
  if !c.enabled then c
  else if c.events.length ≥ c.max_events then
    { c with dropped_events := c.dropped_events + 1 }
  else
    { c with events := c.events ++ [⟨stage, nm, ts_ms, status, attrs⟩] }

/-- Apply a list of `event()` calls (each entry carries the call's
arguments) in order. -/
def applyEvents (c : RequestTraceCollector) (es : List TraceEvent) :
    RequestTraceCollector :=
  es.foldl (fun acc e => acc.event e.stage e.name e.attrs e.status e.ts_ms) c

/-- The claim-relevant fields of the summary dict built by
`TraceSummaryBuilder.build`. -/
structure TraceSummary where
  trace_id : String
  operation : String
  status : String
  events_truncated : Bool
  dropped_events : ℕ
deriving DecidableEq, Repr

/-- Embeds the `events_truncated`/`dropped_events` computation of
`TraceSummaryBuilder.build`: `events_truncated` is `dropped_events > 0`. -/
def buildSummary (trace_id operation status : String)
    (dropped_events : ℕ) : TraceSummary :=
  ⟨trace_id, operation, status, decide (0 < dropped_events), dropped_events⟩

/-- Embeds `RequestTraceCollector.finish`: `None` when disabled, otherwise
the summary and the recorded events. -/
def RequestTraceCollector.finish (c : RequestTraceCollector)
    (status : String) : Option (TraceSummary × List TraceEvent) :=
  if !c.enabled then none
  else some (buildSummary c.trace_id c.operation status c.dropped_events,
    c.events)

/-- Invariant of the event loop: an enabled collector that has seen `k`
calls holds `min k max_events` events and has dropped `k - max_events`. -/
theorem applyEvents_inv (es : List TraceEvent) (c : RequestTraceCollector)
    (M k : ℕ) (hc : c.enabled = true) (hmax : c.max_events = M)
    (hlen : c.events.length = min k M) (hdrop : c.dropped_events = k - M) :
    (applyEvents c es).enabled = true ∧
    (applyEvents c es).max_events = M ∧
    (applyEvents c es).trace_id = c.trace_id ∧
    (applyEvents c es).operation = c.operation ∧
    (applyEvents c es).events.length = min (k + es.length) M ∧
    (applyEvents c es).dropped_events = (k + es.length) - M := by
  induction es generalizing c k with
  | nil =>
    simp only [applyEvents, List.foldl_nil, List.length_nil, Nat.add_zero]
    exact ⟨hc, hmax, trivial, trivial, hlen, hdrop⟩
  | cons e rest ih =>
    simp only [applyEvents, List.foldl_cons] at ih ⊢
    by_cases hfull : c.events.length ≥ c.max_events
    · have hstep : c.event e.stage e.name e.attrs e.status e.ts_ms =
          { c with dropped_events := c.dropped_events + 1 } := by
        unfold RequestTraceCollector.event
        rw [hc]
        simp [hfull]
      rw [hstep]
      have hkM : M ≤ k := by
        rw [hlen, hmax] at hfull
        omega
      have := ih { c with dropped_events := c.dropped_events + 1 } (k + 1)
        hc hmax (by simpa using by rw [hlen]; omega) (by simp [hdrop]; omega)
      simpa [Nat.add_assoc, Nat.add_comm, Nat.add_left_comm] using this
    · have hstep : c.event e.stage e.name e.attrs e.status e.ts_ms =
          { c with events :=
            c.events ++ [⟨e.stage, e.name, e.ts_ms, e.status, e.attrs⟩] } := by
        unfold RequestTraceCollector.event
        rw [hc]
        simp [hfull]
      rw [hstep]
      have hkM : k < M := by
        rw [hlen, hmax] at hfull
        omega
      have := ih
        { c with events :=
          c.events ++ [⟨e.stage, e.name, e.ts_ms, e.status, e.attrs⟩] }
        (k + 1) hc hmax
        (by simp [hlen]; omega) (by simp [hdrop]; omega)
      simpa [Nat.add_assoc, Nat.add_comm, Nat.add_left_comm] using this

/-- C6: for an enabled collector of capacity `max_events`, after more
`event()` calls than the capacity exactly `max_events` events are retained,
`dropped_events` is the excess, and the summary reports
`events_truncated = true`; with no overflow nothing is dropped and
`events_truncated = false`. -/
theorem trace_budget (M : ℕ) (op uuid st : String) (es : List TraceEvent) :
    (es.length > M →
      (applyEvents (mkCollector op true uuid M) es).events.length = M ∧
      (applyEvents (mkCollector op true uuid M) es).dropped_events =
        es.length - M ∧
      ((applyEvents (mkCollector op true uuid M) es).finish st).map
        (fun r => r.1.events_truncated) = some true) ∧
    (es.length ≤ M →
      (applyEvents (mkCollector op true uuid M) es).events.length =
        es.length ∧
      (applyEvents (mkCollector op true uuid M) es).dropped_events = 0 ∧
      ((applyEvents (mkCollector op true uuid M) es).finish st).map
        (fun r => r.1.events_truncated) = some false) := by
  obtain ⟨hen, hmax, _, _, hlen, hdrop⟩ :=
    applyEvents_inv es (mkCollector op true uuid M) M 0 rfl rfl
      (by simp [mkCollector]) (by simp [mkCollector])
  constructor
  · intro hN
    refine ⟨by rw [hlen]; omega, by rw [hdrop]; omega, ?_⟩
    unfold RequestTraceCollector.finish
    rw [hen]
    simp only [Bool.not_true, Bool.false_eq_true, if_false, Option.map_some]
    have : (applyEvents (mkCollector op true uuid M) es).dropped_events ≠ 0 := by
      rw [hdrop]; omega
    simp [buildSummary, Nat.pos_of_ne_zero this]
  · intro hN
    refine ⟨by rw [hlen]; omega, by rw [hdrop]; omega, ?_⟩
    unfold RequestTraceCollector.finish
    rw [hen]
    simp only [Bool.not_true, Bool.false_eq_true, if_false, Option.map_some]
    have h0 : (applyEvents (mkCollector op true uuid M) es).dropped_events = 0 := by
      rw [hdrop]; omega
    simp [buildSummary, h0]

/-- Witness for `trace_budget`: three events into a capacity-2 collector
overflow by one; two events into it do not. -/
theorem trace_budget_witness :
    (([⟨"s", "a", 0, "ok", []⟩, ⟨"s", "b", 1, "ok", []⟩,
        ⟨"s", "c", 2, "ok", []⟩] : List TraceEvent).length > 2 ∧
      (applyEvents (mkCollector "op" true "u" 2)
        [⟨"s", "a", 0, "ok", []⟩, ⟨"s", "b", 1, "ok", []⟩,
         ⟨"s", "c", 2, "ok", []⟩]).events.length = 2 ∧
      (applyEvents (mkCollector "op" true "u" 2)
        [⟨"s", "a", 0, "ok", []⟩, ⟨"s", "b", 1, "ok", []⟩,
         ⟨"s", "c", 2, "ok", []⟩]).dropped_events =
        ([⟨"s", "a", 0, "ok", []⟩, ⟨"s", "b", 1, "ok", []⟩,
          ⟨"s", "c", 2, "ok", []⟩] : List TraceEvent).length - 2 ∧
      ((applyEvents (mkCollector "op" true "u" 2)
        [⟨"s", "a", 0, "ok", []⟩, ⟨"s", "b", 1, "ok", []⟩,
         ⟨"s", "c", 2, "ok", []⟩]).finish "ok").map
        (fun r => r.1.events_truncated) = some true) ∧
    (([⟨"s", "a", 0, "ok", []⟩] : List TraceEvent).length ≤ 2 ∧
      (applyEvents (mkCollector "op" true "u" 2)
        [⟨"s", "a", 0, "ok", []⟩]).events.length =
        ([⟨"s", "a", 0, "ok", []⟩] : List TraceEvent).length ∧
      (applyEvents (mkCollector "op" true "u" 2)
        [⟨"s", "a", 0, "ok", []⟩]).dropped_events = 0 ∧
      ((applyEvents (mkCollector "op" true "u" 2)
        [⟨"s", "a", 0, "ok", []⟩]).finish "ok").map
        (fun r => r.1.events_truncated) = some false) :=
  ⟨⟨by decide,
    (trace_budget 2 "op" "u" "ok"
      [⟨"s", "a", 0, "ok", []⟩, ⟨"s", "b", 1, "ok", []⟩,
       ⟨"s", "c", 2, "ok", []⟩]).1 (by decide)⟩,
   ⟨by decide,
    (trace_budget 2 "op" "u" "ok" [⟨"s", "a", 0, "ok", []⟩]).2 (by decide)⟩⟩

/-! ## IO playback success criterion
(`openviking/storage/recorder/playback.py`)

`_play_fs_operation` / `_play_vikingdb_operation` re-issue the recorded
call; if it returns, the result is marked successful; if it raises, it is
successful exactly when the record carries a (truthy) error message that
matches the raised message under `_errors_match`.  The embedding works at
the outcome level: a replay outcome is `none` (returned) or `some msg`
(raised with message).  Python's `str.lower` and `in` are embedded as
character-level lowercase and substring search. -/

/-- Python `str.lower()` (character-wise; the error phrases are ASCII). -/
def strToLower (s : String) : String := String.mk (s.data.map Char.toLower)

/-- Whether the second list is a leading segment of the first. -/
def startsWithL : List Char → List Char → Bool
  | _, [] => true
  | [], _ :: _ => false
  | a :: as, b :: bs => (a = b) && startsWithL as bs

/-- Whether the second list occurs contiguously inside the first. -/
def containsSubL : List Char → List Char → Bool
  | _, [] => true
  | [], _ :: _ => false
  | a :: as, pat => startsWithL (a :: as) pat || containsSubL as pat

/-- Python `pat in s` on strings. -/
def strContainsSub (s pat : String) : Bool := containsSubL s.data pat.data

/-- The fixed equivalence table of `_errors_match` (names and canonicalized
phrase lists exactly as in the source). -/
def error_type_patterns : List (String × List String) :=
  [ ("no such file",
     ["no such file", "not found", "does not exist",
      "no such file or directory"]),
    ("not a directory", ["not a directory", "not directory"]),
    ("is a directory", ["is a directory", "is directory"]),
    ("permission denied", ["permission denied", "access denied"]),
    ("already exists",
     ["already exists", "file exists", "directory already exists"]),
    ("directory not empty", ["directory not empty", "not empty"]),
    ("connection refused", ["connection refused", "server not running"]),
    ("timeout", ["timeout", "timed out"]),
    ("failed to stat", ["failed to stat", "stat failed"]) ]

/-- Embeds `IOPlayback._errors_match`: lowercase both messages, accept exact
equality, otherwise accept when some pattern group has a phrase contained in
each message. -/
def errors_match (playback_error record_error : String) : Bool :=
  let playback_lower := strToLower playback_error
  let record_lower := strToLower record_error
  if playback_lower = record_lower then true
  else
    error_type_patterns.any fun pr =>
      (pr.2.any fun p => strContainsSub playback_lower p) &&
      (pr.2.any fun p => strContainsSub record_lower p)

/-- Embeds the success assignment of `_play_fs_operation` /
`_play_vikingdb_operation`: a replay that returns is successful; a replay
that raises is successful iff the record's error is truthy and matches. -/
def playbackSuccess (replay_error : Option String)
    (record_error : Option String) : Bool :=
  match replay_error with
  | none => true
  | some e =>
    if optStrTruthy record_error && errors_match e (record_error.getD "")
    then true
    else false

/-- Outcome of one operation: a response value or a raised error message. -/
inductive OpOutcome where
  | ok (v : String)
  | err (msg : String)
deriving DecidableEq, Repr

/-- The error component of an outcome (`None` for a response). -/
def OpOutcome.errMsg : OpOutcome → Option String
  | .ok _ => none
  | .err m => some m

/-- Follows the claim's words (not the source): the spec's parity criterion
`success iff R = R' or errors_match(err(R), err(R'))`, stated on outcomes,
for comparison with the implemented `playbackSuccess`. -/
def specParitySuccess (orig replay : OpOutcome) : Bool :=
  (orig = replay) ||
    (match orig, replay with
     | .err a, .err b => errors_match b a
     | _, _ => false)

/-- C7 counterexample: a record whose original call failed with
`"No such file or directory"` replays successfully (the playback backend
has no such constraint), so `R ≠ R'` and the errors do not match; the
player still reports success, while the claim's criterion reports failure. -/
theorem playback_success_differs_from_parity_claim :
    playbackSuccess (OpOutcome.errMsg (.ok "data"))
      (OpOutcome.errMsg (.err "No such file or directory")) = true ∧
    specParitySuccess (.err "No such file or directory") (.ok "data") =
      false := by
  exact ⟨rfl, by decide⟩

/-- List.any is invariant under a pointwise-equal predicate. -/
theorem list_any_congr {α : Type} (l : List α) (f g : α → Bool)
    (h : ∀ x ∈ l, f x = g x) : l.any f = l.any g := by
  induction l with
  | nil => rfl
  | cons a as ih =>
    simp only [List.any_cons]
    rw [h a (by simp), ih fun x hx => h x (by simp [hx])]

/-- C7 (amended): the player reports a replay successful iff the replay
raises no error, or the original record carries a non-empty error and the
replay's raised message matches it under the fixed equivalence table
(case-insensitive equality or a shared canonical phrase class); the match
relation itself is symmetric. -/
theorem playback_success_characterization (orig replay : OpOutcome) :
    (playbackSuccess replay.errMsg orig.errMsg = true ↔
      ((∃ v, replay = .ok v) ∨
       (∃ e re, replay = .err e ∧ orig = .err re ∧ re ≠ "" ∧
         errors_match e re = true))) ∧
    (∀ a b, errors_match a b = errors_match b a) := by
  constructor
  · cases replay with
    | ok v =>
      simp only [OpOutcome.errMsg, playbackSuccess]
      constructor
      · intro _
        exact Or.inl ⟨v, rfl⟩
      · intro _
        trivial
    | err e =>
      cases orig with
      | ok w =>
        simp [OpOutcome.errMsg, playbackSuccess, optStrTruthy]
      | err re =>
        simp only [OpOutcome.errMsg, playbackSuccess, optStrTruthy,
          Option.getD_some]
        constructor
        · intro h
          split at h
          · rename_i hcond
            simp only [Bool.and_eq_true, Bool.not_eq_true] at hcond
            refine Or.inr ⟨e, re, rfl, rfl, ?_, hcond.2⟩
            intro hre
            rw [hre] at hcond
            exact absurd hcond.1 (by decide)
          · cases h
        · intro h
          rcases h with ⟨v, hv⟩ | ⟨e2, re2, he, hre, hne, hm⟩
          · cases hv
          · cases he
            cases hre
            have hbe : re.isEmpty = false := by
              cases hbe2 : re.isEmpty
              · rfl
              · exact absurd ((String.isEmpty_iff re).mp hbe2) hne
            rw [if_pos (by simp [hbe, hm])]
  · intro a b
    unfold errors_match
    by_cases heq : strToLower a = strToLower b
    · simp [heq]
    · rw [if_neg heq, if_neg (fun hh => heq hh.symm)]
      exact list_any_congr _ _ _ fun pr _ => Bool.and_comm _ _

/-! ## Filter AST and driver compiler
(`openviking/storage/vector_store/driver.py`)

The AST dataclasses live in `openviking/storage/vector_store/expr.py`,
which is missing from the sources; the inductive below is modelled from
the spec's closed sum type (And/Or/Eq/In/Prefix/Range/Contains/Regex/
TimeRange/RawDSL) with the field shapes that `compile_expr` accesses.
The compiler itself is embedded from `VectorStoreDriver.compile_expr`.
On a well-typed AST the source's defensive `if c is not None` child filter
is an identity, so child lists are lists of nodes. -/

/-- Modelled from the spec: the closed filter-expression sum type of
`expr.py` (missing from the sources), with the fields `compile_expr`
reads.  `timeRangeE`'s second bound is the spec's `end` (a Lean keyword). -/
inductive FilterExpr where
  | andE (conds : List FilterExpr)
  | orE (conds : List FilterExpr)
  | eqE (field : String) (value : JVal)
  | inE (field : String) (values : List JVal)
  | prefixE (field : String) (pfx : String)
  | rangeE (field : String) (gt gte lt lte : Option JVal)
  | containsE (field : String) (substring : String)
  | regexE (field : String) (pattern : String)
  | timeRangeE (field : String) (start stop : Option JVal)
  | rawDSL (payload : DSL)

mutual

/-- Embeds the per-node body of `VectorStoreDriver.compile_expr`: And/Or
compile children, drop falsy results, collapse `[]` to the empty filter and
a singleton to its element; Eq/In/Prefix become `must`; Range and TimeRange
become `range` payloads; Contains and Regex keep their shape; RawDSL passes
its payload through. -/
def compileNode : FilterExpr → DSL
  | .rawDSL payload => payload
  | .andE conds =>
    match (compileList conds).filter (fun c => c.truthy) with
    | [] => .empty
    | [c] => c
    | cs => .andD cs
  | .orE conds =>
    match (compileList conds).filter (fun c => c.truthy) with
    | [] => .empty
    | [c] => c
    | cs => .orD cs
  | .eqE f v => .must f [v]
  | .inE f vs => .must f vs
  | .prefixE f p => .must f [.s p]
  | .rangeE f gt gte lt lte => .rangeD f gte gt lte lt
  | .containsE f sub => .containsD f sub
  | .regexE f pat => .regexD f pat
  | .timeRangeE f start stop => .rangeD f start none none stop

/-- Compilation of a child list, in order. -/
def compileList : List FilterExpr → List DSL
  | [] => []
  | c :: rest => compileNode c :: compileList rest

end

/-- Embeds `compile_expr` on its `FilterExpr | None` argument: `None`
compiles to the empty filter. -/
def compile_expr : Option FilterExpr → DSL
  | none => .empty
  | some e => compileNode e

/-- A Python value passed as the `expr` argument: `None`, a node of the
closed AST, or a value of some other runtime type (`foreign` carries the
type name that the source interpolates into the `TypeError` message). -/
inductive PyFilterArg where
  | pynone
  | node (e : FilterExpr)
  | foreign (typeName : String)

/-- Embeds `compile_expr` including its fall-through: a value that is none
of the handled AST types raises `TypeError("Unsupported filter expr type:
...")`. -/
def compile_expr_py : PyFilterArg → Except OVError DSL
  | .pynone => .ok .empty
  | .node e => .ok (compileNode e)
  | .foreign t => .error (.typeError ("Unsupported filter expr type: " ++ t))

/-- Whether a compile outcome is an `InvalidArgument` error. -/
def isInvalidArgumentResult : Except OVError DSL → Bool
  | .error (.invalidArgument _) => true
  | _ => false

/-- Compilation of a child list is an ordered map. -/
theorem compileList_eq_map (conds : List FilterExpr) :
    compileList conds = conds.map compileNode := by
  induction conds with
  | nil => rfl
  | cons c rest ih => simp [compileList, ih]

/-- C8: `None` compiles to the empty filter; an And/Or whose children all
compile to the empty filter compiles to the empty filter; an And/Or whose
children collapse to exactly one non-empty compiled child compiles to that
child; and the compiled output is the order-preserving map of the children
followed by the falsy filter (compilation is a pure function, so purity and
determinism hold by construction). -/
theorem compile_expr_algebra :
    (compile_expr none = .empty) ∧
    (∀ conds : List FilterExpr, (∀ c ∈ conds, compileNode c = .empty) →
      compileNode (.andE conds) = .empty ∧
      compileNode (.orE conds) = .empty) ∧
    (∀ (conds : List FilterExpr) (d : DSL),
      ((conds.map compileNode).filter (fun c => c.truthy)) = [d] →
      compileNode (.andE conds) = d ∧ compileNode (.orE conds) = d) ∧
    (∀ conds : List FilterExpr,
      compileNode (.andE conds) =
        (match (conds.map compileNode).filter (fun c => c.truthy) with
         | [] => DSL.empty
         | [c] => c
         | cs => DSL.andD cs) ∧
      compileNode (.orE conds) =
        (match (conds.map compileNode).filter (fun c => c.truthy) with
         | [] => DSL.empty
         | [c] => c
         | cs => DSL.orD cs)) := by
  refine ⟨rfl, ?_, ?_, ?_⟩
  · intro conds hall
    have hfil : (compileList conds).filter (fun c => c.truthy) = [] := by
      rw [compileList_eq_map, List.filter_eq_nil_iff]
      intro d hd
      rw [List.mem_map] at hd
      obtain ⟨c, hc, hcd⟩ := hd
      rw [← hcd, hall c hc]
      simp [DSL.truthy]
    constructor
    · show (match (compileList conds).filter (fun c => c.truthy) with
        | [] => DSL.empty | [c] => c | cs => DSL.andD cs) = DSL.empty
      rw [hfil]
    · show (match (compileList conds).filter (fun c => c.truthy) with
        | [] => DSL.empty | [c] => c | cs => DSL.orD cs) = DSL.empty
      rw [hfil]
  · intro conds d hone
    have hfil : (compileList conds).filter (fun c => c.truthy) = [d] := by
      rw [compileList_eq_map]
      exact hone
    constructor
    · show (match (compileList conds).filter (fun c => c.truthy) with
        | [] => DSL.empty | [c] => c | cs => DSL.andD cs) = d
      rw [hfil]
    · show (match (compileList conds).filter (fun c => c.truthy) with
        | [] => DSL.empty | [c] => c | cs => DSL.orD cs) = d
      rw [hfil]
  · intro conds
    rw [← compileList_eq_map]
    exact ⟨rfl, rfl⟩

/-- Witness for `compile_expr_algebra`: empty nested And/Or children all
compile to empty, and a two-child And with one falsy child collapses to the
surviving `must`. -/
theorem compile_expr_algebra_witness :
    ((∀ c ∈ ([.andE [], .orE []] : List FilterExpr),
        compileNode c = .empty) ∧
      compileNode (.andE [.andE [], .orE []]) = .empty ∧
      compileNode (.orE [.andE [], .orE []]) = .empty) ∧
    ((([.andE [], .eqE "f" (.s "x")] : List FilterExpr).map
        compileNode).filter (fun c => c.truthy) = [.must "f" [.s "x"]] ∧
      compileNode (.andE [.andE [], .eqE "f" (.s "x")]) =
        .must "f" [.s "x"] ∧
      compileNode (.orE [.andE [], .eqE "f" (.s "x")]) =
        .must "f" [.s "x"]) :=
  by
  have hall : ∀ c ∈ ([.andE [], .orE []] : List FilterExpr),
      compileNode c = .empty := by
    intro c hc
    fin_cases hc <;> rfl
  have hcollapse := compile_expr_algebra.2.2.1
    [.andE [], .eqE "f" (.s "x")] (.must "f" [.s "x"]) rfl
  exact ⟨⟨hall, (compile_expr_algebra.2.1 _ hall).1,
      (compile_expr_algebra.2.1 _ hall).2⟩,
    rfl, hcollapse.1, hcollapse.2⟩

/-- C9 counterexample: the source's fall-through raises Python `TypeError`,
not `InvalidArgument`: on a value of an unsupported runtime type the
compile outcome is a `TypeError` and is not an `InvalidArgument`. -/
theorem compile_expr_unsupported_not_invalid_argument :
    compile_expr_py (.foreign "object") =
      .error (.typeError "Unsupported filter expr type: object") ∧
    isInvalidArgumentResult (compile_expr_py (.foreign "object")) = false :=
  ⟨rfl, rfl⟩

/-- C9 (amended): every node of the closed filter AST is supported by the
base compiler, and a value outside the AST makes `compile_expr` fail with
`TypeError("Unsupported filter expr type: ...")` — a `TypeError`, not an
`InvalidArgument`. -/
theorem compile_expr_unsupported_type_error (t : String) :
    compile_expr_py (.foreign t) =
      .error (.typeError ("Unsupported filter expr type: " ++ t)) ∧
    isInvalidArgumentResult (compile_expr_py (.foreign t)) = false ∧
    (∀ e : FilterExpr, compile_expr_py (.node e) = .ok (compileNode e)) :=
  ⟨rfl, rfl, fun _ => rfl⟩

end OpenViking
